import Mathlib

/-!
# Verification of the emdash git backend (GitService / gitIpc)

Shallow embedding of the git-orchestration layer:

* external git commands are modelled by an environment `GitEnv : Cmd → ExecResult`;
  an operation returns its result together with the ordered trace of commands
  it issued, so retry/guard policies are visible in the trace;
* the pure parsing helpers (`parseDiffLines`, log-output parsing, the remote
  status fingerprint) are translated directly from the source;
* the watcher / poller registries of `gitIpc.ts` are modelled as functional
  state machines over association lists.

JS string primitives (`split`, `trim`, `includes`, `startsWith`, `slice`) are
re-implemented over `List Char` by structural recursion so that every
definition evaluates inside the kernel.
-/

namespace Emdash

deriving instance DecidableEq for Except

/-- A git command: the argument list handed to `execFile('git', args)`. -/
abbrev Cmd := List String

/-- Result of executing an external command (`{ stdout, stderr, exitCode }`);
`execFileAsync` throws exactly when `exitCode ≠ 0`. -/
structure ExecResult where
  stdout : String
  stderr : String
  exitCode : Nat
  deriving Repr, DecidableEq

/-- The external world: what each git command returns when executed. -/
abbrev GitEnv := Cmd → ExecResult

/-- `r.ok` iff the command succeeded (did not throw in the TS code). -/
def ExecResult.ok (r : ExecResult) : Bool := r.exitCode = 0

/-! ## String helpers mirroring the JS string operations used by the source -/

/-- `hasPrefixL s p`: char-list `s` starts with char-list `p`. -/
def hasPrefixL : List Char → List Char → Bool
  | _, [] => true
  | [], _ :: _ => false
  | a :: as, b :: bs => a = b && hasPrefixL as bs

/-- `containsSub s p`: char-list `p` occurs contiguously inside `s`. -/
def containsSub : List Char → List Char → Bool
  | [], p => p.isEmpty
  | s@(_ :: rest), p => hasPrefixL s p || containsSub rest p

/-- JS `s.includes(p)`. -/
def strContains (s p : String) : Bool := containsSub s.data p.data

/-- JS `s.startsWith(p)`. -/
def strStartsWith (s p : String) : Bool := hasPrefixL s.data p.data

/-- JS `s.trim()` (ASCII whitespace). -/
def jsTrim (s : String) : String :=
  String.mk
    (((s.data.dropWhile Char.isWhitespace).reverse.dropWhile
      Char.isWhitespace).reverse)

/-- JS `s.slice(n)` / `line[0]`-style char access is built from these. -/
def strDrop (s : String) (n : Nat) : String := String.mk (s.data.drop n)

/-- First character of `s` as a string (`line[0]`, empty for the empty
string). -/
def strTake1 (s : String) : String := String.mk (s.data.take 1)

/-- Fuel-driven splitter: `jsSplitFuel sep fuel s` splits char-list `s` at
each leftmost non-overlapping occurrence of the non-empty separator `sep`.
Each recursive call consumes at least one character, so any `fuel > s.length`
yields the exact JS `String.prototype.split` result. -/
def jsSplitFuel (sep : List Char) : Nat → List Char → List (List Char)
  | _, [] => [[]]
  | 0, s => [s]
  | fuel + 1, c :: rest =>
      if !sep.isEmpty && hasPrefixL (c :: rest) sep then
        [] :: jsSplitFuel sep fuel ((c :: rest).drop sep.length)
      else
        match jsSplitFuel sep fuel rest with
        | [] => [[c]]
        | t :: ts => (c :: t) :: ts

/-- JS `s.split(sep)` for a non-empty separator. -/
def jsSplit (s sep : String) : List String :=
  (jsSplitFuel sep.data (s.data.length + 1) s.data).map String.mk

/-- JS `xs.join(sep)`. -/
def jsJoin (sep : String) : List String → String
  | [] => ""
  | [x] => x
  | x :: xs => x ++ sep ++ jsJoin sep xs

/-- Digits value of a list of decimal digit chars (leftmost first). -/
def digitsVal : List Char → Nat → Nat
  | [], acc => acc
  | c :: cs, acc => digitsVal cs (acc * 10 + (c.toNat - 48))

/-- JS `parseInt(s, 10) || 0`: skip leading whitespace, optional sign, read a
maximal run of decimal digits; no digits (NaN) collapses to `0` via `|| 0`. -/
def jsParseIntOr0 (s : String) : Int :=
  let cs := s.data.dropWhile Char.isWhitespace
  let (neg, cs) :=
    match cs with
    | '-' :: rest => (true, rest)
    | '+' :: rest => (false, rest)
    | _ => (false, cs)
  let digits := cs.takeWhile Char.isDigit
  if digits.isEmpty then 0
  else
    let v : Int := Int.ofNat (digitsVal digits 0)
    if neg then -v else v

/-! ## Diff line model and parser (`parseDiffLines`, GitService.ts 208-243) -/

/-- The `type` discriminator of a structured diff line. -/
inductive DiffType
  | context
  | add
  | del
  deriving Repr, DecidableEq

/-- `DiffLine = { left?: string; right?: string; type }`. -/
structure DiffLine where
  left : Option String
  right : Option String
  type : DiffType
  deriving Repr, DecidableEq

/-- `DIFF_HEADER_PREFIXES`: headers emitted by `git diff` that are skipped. -/
def diffHeaderPrefixes : List String :=
  ["diff ", "index ", "--- ", "+++ ", "@@", "new file mode", "old file mode",
   "deleted file mode", "similarity index", "rename from", "rename to",
   "Binary files"]

/-- One iteration of the `parseDiffLines` loop: `none` means the raw line is
skipped (empty, header, or a `\` no-newline marker). -/
def classifyLine (line : String) : Option DiffLine :=
  if line = "" then none
  else if diffHeaderPrefixes.any (fun p => strStartsWith line p) then none
  else
    let pfx := strTake1 line
    let content := strDrop line 1
    if pfx = "\\" then none
    else if pfx = " " then some ⟨some content, some content, .context⟩
    else if pfx = "-" then some ⟨some content, none, .del⟩
    else if pfx = "+" then some ⟨none, some content, .add⟩
    else some ⟨some line, some line, .context⟩

/-- Result of `parseDiffLines`: the structured lines and the binary flag. -/
structure ParsedDiff where
  lines : List DiffLine
  isBinary : Bool
  deriving Repr, DecidableEq

/-- `parseDiffLines(stdout)`: split on newlines, classify each raw line, and
flag binary diffs (zero parsed lines plus a `Binary files` marker). -/
def parseDiffLines (stdout : String) : ParsedDiff :=
  let result := (jsSplit stdout "\n").filterMap classifyLine
  ⟨result, result.isEmpty && strContains stdout "Binary files"⟩

/-! ## push (GitService.ts 319-340) -/

/-- The stderr test guarding the upstream-setting retry:
`stderr.includes('has no upstream branch') || stderr.includes('no upstream configured')`. -/
def upstreamMissing (stderr : String) : Bool :=
  strContains stderr "has no upstream branch" ||
    strContains stderr "no upstream configured"

/-- A command whose first argument is `push` (a plain or upstream-setting
push). -/
def isPushCmd (c : Cmd) : Bool := c.head? = some "push"

/-- `push(taskPath)`: plain `git push`; on failure, retry once with
`git push --set-upstream origin <current-branch>` only when the stderr
indicates a missing upstream; any other failure propagates unmodified.
Returns the result together with the trace of commands issued. -/
def gitPush (env : GitEnv) : Except ExecResult String × List Cmd :=
  let r1 := env ["push"]
  if r1.ok then (.ok (jsTrim r1.stdout), [["push"]])
  else if upstreamMissing r1.stderr then
    let rb := env ["branch", "--show-current"]
    if rb.ok then
      let c2 : Cmd := ["push", "--set-upstream", "origin", jsTrim rb.stdout]
      let r2 := env c2
      if r2.ok then
        (.ok (jsTrim r2.stdout), [["push"], ["branch", "--show-current"], c2])
      else (.error r2, [["push"], ["branch", "--show-current"], c2])
    else (.error rb, [["push"], ["branch", "--show-current"]])
  else (.error r1, [["push"]])

/-- Environment of a repository whose branch `feat` has no upstream: the
plain push fails with the no-upstream stderr and the retry succeeds. -/
def envNoUpstream : GitEnv := fun c =>
  if c = ["push"] then
    ⟨"", "fatal: The current branch feat has no upstream branch.", 128⟩
  else if c = ["branch", "--show-current"] then ⟨"feat\n", "", 0⟩
  else if c = ["push", "--set-upstream", "origin", "feat"] then
    ⟨"Branch tracking set", "", 0⟩
  else ⟨"", "", 0⟩

/-! ## getLog (GitService.ts 348-455) -/

/-- `FIELD_SEP` of the log format. -/
def fieldSep : String := "---FIELD_SEP---"

/-- `RECORD_SEP` of the log format. -/
def recordSep : String := "---RECORD_SEP---"

/-- One commit of `getLog`'s result. -/
structure LogEntry where
  hash : String
  subject : String
  body : String
  author : String
  date : String
  isPushed : Bool
  tags : List String
  deriving Repr, DecidableEq

/-- The `--pretty` format string of the log command. -/
def logFormat : String :=
  recordSep ++ "%H" ++ fieldSep ++ "%s" ++ fieldSep ++ "%an" ++ fieldSep ++
    "%aI" ++ fieldSep ++ "%D" ++ fieldSep ++ "%b"

/-- One record of the log output (`entry`, at position `index`):
field split, tag extraction from the `%D` decorations, and the pushed flag
`skip + index >= aheadCount`. -/
def parseLogEntry (skip : Nat) (aheadCount : Int) (index : Nat)
    (entry : String) : LogEntry :=
  let parts := jsSplit (jsTrim entry) fieldSep
  let refs := parts.getD 4 ""
  let tags := (((jsSplit refs ",").map jsTrim).filter
      (fun r => strStartsWith r "tag: ")).map (fun r => strDrop r 5)
  { hash := parts.getD 0 "", subject := parts.getD 1 "",
    body := jsTrim (parts.getD 5 ""), author := parts.getD 2 "",
    date := parts.getD 3 "",
    isPushed := decide (aheadCount ≤ (skip : Int) + (index : Int)),
    tags := tags }

/-- The commit list parsed from the raw log output. -/
def parseLogOutput (stdout : String) (skip : Nat) (aheadCount : Int) :
    List LogEntry :=
  if jsTrim stdout = "" then []
  else
    (((jsSplit stdout recordSep).filter (fun e => jsTrim e ≠ "")).enum).map
      (fun p => parseLogEntry skip aheadCount p.1 p.2)

/-- Third tier of the ahead-count fallback: compare against the remote's
default branch resolved through `refs/remotes/origin/HEAD`; on any failure
the count defaults to `0`. -/
def aheadTier3 (env : GitEnv) : Int × List Cmd :=
  let cs : Cmd := ["symbolic-ref", "--short", "refs/remotes/origin/HEAD"]
  let rs := env cs
  if rs.ok then
    let c3 : Cmd := ["rev-list", "--count", jsTrim rs.stdout ++ "..HEAD"]
    let r3 := env c3
    if r3.ok then (jsParseIntOr0 (jsTrim r3.stdout), [cs, c3])
    else (0, [cs, c3])
  else (0, [cs])

/-- The three-tier ahead-count computation of `getLog`: upstream tracking
ref, then `origin/<current-branch>`, then the remote default branch; all
failures fall through to `0`. -/
def computeAheadCount (env : GitEnv) : Int × List Cmd :=
  let c1 : Cmd := ["rev-list", "--count", "@{upstream}..HEAD"]
  let r1 := env c1
  if r1.ok then (jsParseIntOr0 (jsTrim r1.stdout), [c1])
  else
    let cb : Cmd := ["rev-parse", "--abbrev-ref", "HEAD"]
    let rb := env cb
    if rb.ok then
      let c2 : Cmd :=
        ["rev-list", "--count", "origin/" ++ jsTrim rb.stdout ++ "..HEAD"]
      let r2 := env c2
      if r2.ok then (jsParseIntOr0 (jsTrim r2.stdout), [c1, cb, c2])
      else
        let t := aheadTier3 env
        (t.1, [c1, cb, c2] ++ t.2)
    else
      let t := aheadTier3 env
      (t.1, [c1, cb] ++ t.2)

/-- `getLog(taskPath, maxCount, skip, knownAheadCount)`: reuse a
non-negative caller-provided ahead count, otherwise compute one; then run
the log command and parse its records. -/
def getLog (env : GitEnv) (maxCount skip : Nat) (known : Option Int) :
    Except ExecResult (List LogEntry × Int) × List Cmd :=
  let k := known.getD (-1)
  let a := if k < 0 then computeAheadCount env else (k, [])
  let aheadCount := a.1
  let cl : Cmd := ["log", "--max-count=" ++ toString maxCount,
    "--skip=" ++ toString skip, "--pretty=format:" ++ logFormat, "--"]
  let rl := env cl
  if rl.ok then
    (.ok (parseLogOutput rl.stdout skip aheadCount, aheadCount), a.2 ++ [cl])
  else (.error rl, a.2 ++ [cl])

/-! ## softResetLastCommit (GitService.ts 593-620) -/

/-- A failure of an embedded operation: either a guard `throw new Error(msg)`
raised by the service itself, or a failing external command propagated. -/
inductive GitFailure
  | guard (msg : String)
  | exec (r : ExecResult)
  deriving Repr, DecidableEq

/-- A command whose first argument is `reset` (the only mutating command
`softResetLastCommit` can issue). -/
def isResetCmd (c : Cmd) : Bool := c.head? = some "reset"

/-- `log[0]?.isPushed` with JS truthiness (`undefined` is false). -/
def headPushed (commits : List LogEntry) : Bool :=
  match commits.head? with
  | some c => c.isPushed
  | none => false

/-- `softResetLastCommit(taskPath)`: guard against the initial commit
(`HEAD~1` must exist) and against an already-pushed latest commit, then read
the latest subject/body and soft-reset. -/
def softResetLastCommit (env : GitEnv) :
    Except GitFailure (String × String) × List Cmd :=
  let cv : Cmd := ["rev-parse", "--verify", "HEAD~1"]
  let rv := env cv
  if !rv.ok then (.error (.guard "Cannot undo the initial commit"), [cv])
  else
    let lg := getLog env 1 0 none
    match lg.1 with
    | .error e => (.error (.exec e), cv :: lg.2)
    | .ok (commits, _) =>
      if headPushed commits then
        (.error (.guard "Cannot undo a commit that has already been pushed"),
         cv :: lg.2)
      else
        let cs : Cmd := ["log", "-1", "--pretty=format:%s"]
        let rs := env cs
        if !rs.ok then (.error (.exec rs), cv :: lg.2 ++ [cs])
        else
          let cb : Cmd := ["log", "-1", "--pretty=format:%b"]
          let rb := env cb
          if !rb.ok then (.error (.exec rb), cv :: lg.2 ++ [cs, cb])
          else
            let cr : Cmd := ["reset", "--soft", "HEAD~1"]
            let rr := env cr
            if !rr.ok then (.error (.exec rr), cv :: lg.2 ++ [cs, cb, cr])
            else
              (.ok (jsTrim rs.stdout, jsTrim rb.stdout),
               cv :: lg.2 ++ [cs, cb, cr])

/-- Environment whose log command returns exactly one commit record (hash
`h1`, subject `s1`, author `au`, date `2024`, tag `v1`, body `body1`);
every other command succeeds with empty output. -/
def envLogOne : GitEnv := fun c =>
  if c.head? = some "log" then
    ⟨recordSep ++ "h1" ++ fieldSep ++ "s1" ++ fieldSep ++ "au" ++ fieldSep ++
      "2024" ++ fieldSep ++ "tag: v1" ++ fieldSep ++ "body1", "", 0⟩
  else ⟨"", "", 0⟩

/-- Environment with no reachable remote: every command fails except the
log command, which returns one commit record. -/
def envAllFail : GitEnv := fun c =>
  if c.head? = some "log" then
    ⟨recordSep ++ "h1" ++ fieldSep ++ "s1" ++ fieldSep ++ "au" ++ fieldSep ++
      "2024" ++ fieldSep ++ "" ++ fieldSep ++ "b", "", 0⟩
  else ⟨"", "fatal: unable to access remote", 128⟩

/-- Environment where every command succeeds with empty output. -/
def envTrivial : GitEnv := fun _ => ⟨"", "", 0⟩

/-- Environment of a local-only branch: the tracking-config lookup fails,
`ls-remote` finds no matching head (empty output), and every other command
succeeds. -/
def envLocalRename : GitEnv := fun c =>
  if c.head? = some "config" then ⟨"", "", 1⟩
  else ⟨"", "", 0⟩

/-- Environment of a repository sitting on its initial commit: verifying
`HEAD~1` fails, everything else succeeds. -/
def envInitialCommit : GitEnv := fun c =>
  if c = ["rev-parse", "--verify", "HEAD~1"] then
    ⟨"", "fatal: Needed a single revision", 128⟩
  else ⟨"", "", 0⟩

/-! ## Ahead/behind of the `git:get-branch-status` handler
(gitIpc.ts 1847-1886) -/

/-- Tokens of an already-trimmed string under JS `split(/\s+/)`. -/
def wsTokens : List Char → List Char → List (List Char)
  | [], cur => if cur.isEmpty then [] else [cur.reverse]
  | c :: rest, cur =>
      if c.isWhitespace then
        if cur.isEmpty then wsTokens rest []
        else cur.reverse :: wsTokens rest []
      else wsTokens rest (c :: cur)

/-- JS `s.split(/\s+/)` for the trimmed strings the handler passes. -/
def jsSplitWs (s : String) : List String :=
  if s = "" then [""] else (wsTokens s.data []).map String.mk

/-- The `(ahead, behind)` pair parsed from a
`rev-list --left-right --count` output; `none` when fewer than two
whitespace-separated fields are present (the handler then keeps `0/0`). -/
def parseLeftRight (stdout : String) : Option (Int × Int) :=
  let parts := jsSplitWs (jsTrim stdout)
  if 2 ≤ parts.length then
    some (jsParseIntOr0 (parts.getD 1 "0"), jsParseIntOr0 (parts.getD 0 "0"))
  else none

/-- First full match of `/key\s+(\d+)/i` on a char-list: case-insensitive
`key`, then at least one whitespace, then a maximal run of digits whose
value is returned. -/
def matchKeyNum (key : List Char) : List Char → Option Nat
  | [] => none
  | c :: rest =>
      (if hasPrefixL ((c :: rest).map Char.toLower) key then
        let after := (c :: rest).drop key.length
        let ws := after.takeWhile Char.isWhitespace
        let digits := (after.drop ws.length).takeWhile Char.isDigit
        if !ws.isEmpty && !digits.isEmpty then some (digitsVal digits 0)
        else none
      else none).orElse (fun _ => matchKeyNum key rest)

/-- `line.match(/ahead\s+(\d+)/i)` reduced to the captured number. -/
def matchAheadNum (line : String) : Option Nat := matchKeyNum "ahead".data line.data

/-- `line.match(/behind\s+(\d+)/i)` reduced to the captured number. -/
def matchBehindNum (line : String) : Option Nat := matchKeyNum "behind".data line.data

/-- First line of the `git status -sb` output. -/
def statusShortBranchLine (stdout : String) : String :=
  (jsSplit stdout "\n").headD ""

/-- The handler's three-tier ahead/behind computation: upstream tracking
ref, then `origin/<branch>`, then scraping `git status -sb`; every failing
tier falls through, and with nothing left the counts stay `(0, 0)` without
raising an error. -/
def branchAheadBehind (env : GitEnv) (branch : String) :
    (Int × Int) × List Cmd :=
  let c1 : Cmd := ["rev-list", "--left-right", "--count", "@{upstream}...HEAD"]
  let r1 := env c1
  if r1.ok then
    (match parseLeftRight r1.stdout with
     | some ab => ab
     | none => (0, 0), [c1])
  else
    let c2 : Cmd :=
      ["rev-list", "--left-right", "--count", "origin/" ++ branch ++ "...HEAD"]
    let r2 := env c2
    if r2.ok then
      (match parseLeftRight r2.stdout with
       | some ab => ab
       | none => (0, 0), [c1, c2])
    else
      let c3 : Cmd := ["status", "-sb"]
      let r3 := env c3
      if r3.ok then
        let line := statusShortBranchLine r3.stdout
        let ahead : Int :=
          match matchAheadNum line with
          | some n => (n : Int)
          | none => 0
        let behind : Int :=
          match matchBehindNum line with
          | some n => (n : Int)
          | none => 0
        ((ahead, behind), [c1, c2, c3])
      else ((0, 0), [c1, c2, c3])

/-! ## getFileDiff / getCommitFileDiff (GitService.ts 245-307, 532-591) -/

/-- The `{ lines, isBinary? }` object of the diff endpoints; the TS object
omits `isBinary` outside the binary case, modelled as `false`. -/
structure FileDiffResult where
  lines : List DiffLine
  isBinary : Bool
  deriving Repr, DecidableEq

/-- The path-traversal guard: the resolved absolute file path neither lies
under the resolved working-tree root nor equals it. `absPath` and
`resolvedTaskPath` are the outputs of `path.resolve`, `sep` the platform
separator. -/
def pathEscapes (absPath resolvedTaskPath sep : String) : Bool :=
  !strStartsWith absPath (resolvedTaskPath ++ sep) &&
    decide (absPath ≠ resolvedTaskPath)

/-- A file's content presented as an all-additions diff. -/
def allAddLines (content : String) : List DiffLine :=
  (jsSplit content "\n").map (fun l => ⟨none, some l, .add⟩)

/-- A file's content presented as an all-deletions diff. -/
def allDelLines (content : String) : List DiffLine :=
  (jsSplit content "\n").map (fun l => ⟨some l, none, .del⟩)

/-- `getFileDiff(taskPath, filePath)`: path guard, diff against `HEAD`,
binary detection, and the untracked/unreadable fallbacks. `readFileRes` is
the result of `readFileTextCapped` on the file (`none` when unreadable or
above the size cap). -/
def getFileDiff (env : GitEnv) (readFileRes : Option String)
    (absPath resolvedTaskPath sep filePath : String) :
    Except GitFailure FileDiffResult × List Cmd :=
  if pathEscapes absPath resolvedTaskPath sep then
    (.error (.guard "File path is outside the worktree"), [])
  else
    let cd : Cmd := ["diff", "--no-color", "--unified=2000", "HEAD", "--", filePath]
    let rd := env cd
    if rd.ok then
      let parsed := parseDiffLines rd.stdout
      if parsed.isBinary then (.ok ⟨[], true⟩, [cd])
      else if parsed.lines.isEmpty then
        match readFileRes with
        | some content => (.ok ⟨allAddLines content, false⟩, [cd])
        | none =>
          let cs : Cmd := ["show", "HEAD:" ++ filePath]
          let rs := env cs
          if rs.ok then (.ok ⟨allDelLines rs.stdout, false⟩, [cd, cs])
          else (.ok ⟨[], false⟩, [cd, cs])
      else (.ok ⟨parsed.lines, false⟩, [cd])
    else
      match readFileRes with
      | some content => (.ok ⟨allAddLines content, false⟩, [cd])
      | none =>
        let cs : Cmd := ["show", "HEAD:" ++ filePath]
        let rs := env cs
        if rs.ok then (.ok ⟨allDelLines rs.stdout, false⟩, [cd, cs])
        else (.ok ⟨[], false⟩, [cd, cs])

/-- `getCommitFileDiff(taskPath, commitHash, filePath)`: path guard, root
commit detection, first-parent diff or all-additions view of a root
commit. -/
def getCommitFileDiff (env : GitEnv)
    (absPath resolvedTaskPath sep commitHash filePath : String) :
    Except GitFailure FileDiffResult × List Cmd :=
  if pathEscapes absPath resolvedTaskPath sep then
    (.error (.guard "File path is outside the worktree"), [])
  else
    let cv : Cmd := ["rev-parse", "--verify", commitHash ++ "~1"]
    let rv := env cv
    if rv.ok then
      let cd : Cmd := ["diff", "--no-color", "--unified=2000",
        commitHash ++ "~1", commitHash, "--", filePath]
      let rd := env cd
      if rd.ok then
        let parsed := parseDiffLines rd.stdout
        if parsed.isBinary then (.ok ⟨[], true⟩, [cv, cd])
        else (.ok ⟨parsed.lines, false⟩, [cv, cd])
      else (.error (.exec rd), [cv, cd])
    else
      let cs : Cmd := ["show", commitHash ++ ":" ++ filePath]
      let rs := env cs
      if rs.ok then (.ok ⟨allAddLines rs.stdout, false⟩, [cv, cs])
      else (.ok ⟨[], false⟩, [cv, cs])

/-! ## git:rename-branch handler, local path (gitIpc.ts 2162-2246) -/

/-- Truthiness of `out?.trim()` on a command result. -/
def nonEmptyTrim (r : ExecResult) : Bool := jsTrim r.stdout ≠ ""

/-- The local branch-rename flow: detect remote tracking before the rename
(`git config branch.<old>.remote`, falling back to `ls-remote`), rename
locally, and only for a remote-tracking branch delete the old remote branch
(failure tolerated) and push the new name with tracking. Returns
`remotePushed` on success. -/
def renameBranchLocal (env : GitEnv) (oldBranch newBranch : String) :
    Except ExecResult Bool × List Cmd :=
  let cCfg : Cmd := ["config", "--get", "branch." ++ oldBranch ++ ".remote"]
  let rCfg := env cCfg
  let d : Bool × String × List Cmd :=
    if rCfg.ok then
      if nonEmptyTrim rCfg then (true, jsTrim rCfg.stdout, [cCfg])
      else (false, "origin", [cCfg])
    else
      let cLs : Cmd := ["ls-remote", "--heads", "origin", oldBranch]
      let rLs := env cLs
      if rLs.ok && nonEmptyTrim rLs then (true, "origin", [cCfg, cLs])
      else (false, "origin", [cCfg, cLs])
  let remotePushed := d.1
  let remoteName := d.2.1
  let tr1 := d.2.2
  let cMv : Cmd := ["branch", "-m", oldBranch, newBranch]
  let rMv := env cMv
  if !rMv.ok then (.error rMv, tr1 ++ [cMv])
  else if remotePushed then
    let cDel : Cmd := ["push", remoteName, "--delete", oldBranch]
    let _rDel := env cDel
    let cPu : Cmd := ["push", "-u", remoteName, newBranch]
    let rPu := env cPu
    if rPu.ok then (.ok true, tr1 ++ [cMv, cDel, cPu])
    else (.error rPu, tr1 ++ [cMv, cDel, cPu])
  else (.ok false, tr1 ++ [cMv])

/-! ## Watcher / poller registries (gitIpc.ts 42-106, 135-189) -/

/-- Lookup in the `Map<string, _>` model. -/
def lookupEntry {α : Type} : List (String × α) → String → Option α
  | [], _ => none
  | (k, v) :: rest, key => if k = key then some v else lookupEntry rest key

/-- `Map.set`: bind `k` to `v`, dropping any previous binding. -/
def setEntry {α : Type} (m : List (String × α)) (k : String) (v : α) :
    List (String × α) :=
  (k, v) :: m.filter (fun p => p.1 ≠ k)

/-- `Map.delete`. -/
def delEntry {α : Type} (m : List (String × α)) (k : String) :
    List (String × α) :=
  m.filter (fun p => p.1 ≠ k)

/-- JS `Set.add` (insertion order preserved, no duplicate). -/
def addId (ids : List String) (id : String) : List String :=
  if id ∈ ids then ids else ids ++ [id]

/-- One `GitStatusWatchEntry`: the underlying `fs.FSWatcher` (by identity)
and the subscription tokens sharing it. -/
structure GitWatchEntry where
  watcher : Nat
  watchIds : List String
  deriving Repr, DecidableEq

/-- The `gitStatusWatchers` registry plus the resource bookkeeping needed to
observe creations and closes: a fresh-identity counter and the list of
watchers on which `close()` was called. -/
structure WatcherRegistry where
  entries : List (String × GitWatchEntry)
  nextWatcher : Nat
  closedWatchers : List Nat
  deriving Repr, DecidableEq

/-- `ensureGitStatusWatcher(taskPath)` with the ambient conditions
(`supportsRecursiveWatch`, path existence, `fs.watch` not throwing) passed
explicitly and the fresh `randomUUID()` given as `newId`. Returns the new
registry and the watch id on success. -/
def ensureGitStatusWatcher (s : WatcherRegistry)
    (supportsRecursiveWatch pathExists watchCreateOk : Bool)
    (taskPath newId : String) : WatcherRegistry × Option String :=
  if !supportsRecursiveWatch then (s, none)
  else if !pathExists then (s, none)
  else
    match lookupEntry s.entries taskPath with
    | some e =>
        let e2 : GitWatchEntry := { e with watchIds := addId e.watchIds newId }
        ({ s with entries := setEntry s.entries taskPath e2 }, some newId)
    | none =>
        if watchCreateOk then
          ({ s with
              entries := setEntry s.entries taskPath ⟨s.nextWatcher, [newId]⟩,
              nextWatcher := s.nextWatcher + 1 }, some newId)
        else (s, none)

/-- `releaseGitStatusWatcher(taskPath, watchId?)`: drop the given id; close
the watcher and delete the registry entry exactly when the id set has become
empty. -/
def releaseGitStatusWatcher (s : WatcherRegistry) (taskPath : String)
    (watchId : Option String) : WatcherRegistry :=
  match lookupEntry s.entries taskPath with
  | none => s
  | some e =>
      let ids :=
        match watchId with
        | some id => e.watchIds.filter (fun x => x ≠ id)
        | none => e.watchIds
      if ids.length = 0 then
        { s with entries := delEntry s.entries taskPath,
                 closedWatchers := s.closedWatchers ++ [e.watcher] }
      else
        let e2 := { e with watchIds := ids }
        { s with entries := setEntry s.entries taskPath e2 }

/-- One `RemoteStatusPollEntry`: the `setInterval` handle (by identity), the
subscription tokens, the last status fingerprint and the SSH connection. -/
structure RemotePollEntry where
  intervalId : Nat
  watchIds : List String
  lastStatusHash : String
  connectionId : String
  deriving Repr, DecidableEq

/-- The `remoteStatusPollers` registry with interval bookkeeping. -/
structure PollerRegistry where
  entries : List (String × RemotePollEntry)
  nextInterval : Nat
  clearedIntervals : List Nat
  deriving Repr, DecidableEq

/-- `ensureRemoteStatusPoller(taskPath, connectionId)` with the fresh
`randomUUID()` given as `newId`; always succeeds. -/
def ensureRemoteStatusPoller (s : PollerRegistry)
    (taskPath connectionId newId : String) : PollerRegistry × String :=
  match lookupEntry s.entries taskPath with
  | some e =>
      let e2 : RemotePollEntry := { e with watchIds := addId e.watchIds newId }
      ({ s with entries := setEntry s.entries taskPath e2 }, newId)
  | none =>
      ({ s with
          entries := setEntry s.entries taskPath
            ⟨s.nextInterval, [newId], "", connectionId⟩,
          nextInterval := s.nextInterval + 1 }, newId)

/-- `releaseRemoteStatusPoller(taskPath, watchId?)`: drop the given id;
clear the interval and delete the entry exactly when the id set has become
empty. -/
def releaseRemoteStatusPoller (s : PollerRegistry) (taskPath : String)
    (watchId : Option String) : PollerRegistry :=
  match lookupEntry s.entries taskPath with
  | none => s
  | some e =>
      let ids :=
        match watchId with
        | some id => e.watchIds.filter (fun x => x ≠ id)
        | none => e.watchIds
      if ids.length = 0 then
        { s with entries := delEntry s.entries taskPath,
                 clearedIntervals := s.clearedIntervals ++ [e.intervalId] }
      else
        let e2 := { e with watchIds := ids }
        { s with entries := setEntry s.entries taskPath e2 }

/-! ## Remote status poll fingerprint (gitIpc.ts 60-93) -/

/-- One entry of the detailed status list the remote poller hashes. -/
structure GitChange where
  path : String
  status : String
  additions : Int
  deletions : Int
  isStaged : Bool
  deriving Repr, DecidableEq

/-- JS string interpolation of a boolean. -/
def boolToStr (b : Bool) : String := if b then "true" else "false"

/-- The poll fingerprint:
`changes.map(c => path:status:isStaged).join('|')`. -/
def statusFingerprint (changes : List GitChange) : String :=
  jsJoin "|"
    (changes.map (fun c => c.path ++ ":" ++ c.status ++ ":" ++ boolToStr c.isStaged))

/-- One poll interval tick against a live poller entry: `none` models a
failed remote status call (caught; the cycle is skipped), `some changes` a
successful one. Returns the updated entry and whether a change notification
was broadcast. -/
def pollTick (e : RemotePollEntry) (pollOutcome : Option (List GitChange)) :
    RemotePollEntry × Bool :=
  match pollOutcome with
  | none => (e, false)
  | some changes =>
      let h := statusFingerprint changes
      if h ≠ e.lastStatusHash then ({ e with lastStatusHash := h }, true)
      else (e, false)

end Emdash

namespace Emdash

/-- C3: every parsed diff line is a context line with equal defined `left` and
`right`, a del line with only `left` defined, or an add line with only `right`
defined; no line has both sides undefined, and a non-empty non-header line
whose first character is none of space, `-`, `+`, `\` is classified as
context carrying the whole line on both sides. -/
theorem parseDiffLines_shape (stdout : String) (dl : DiffLine)
    (hmem : dl ∈ (parseDiffLines stdout).lines) :
    ((dl.type = .context → ∃ s, dl.left = some s ∧ dl.right = some s) ∧
     (dl.type = .del → dl.left.isSome ∧ dl.right = none) ∧
     (dl.type = .add → dl.right.isSome ∧ dl.left = none) ∧
     (dl.left ≠ none ∨ dl.right ≠ none)) ∧
    (∀ line : String, line ≠ "" →
      diffHeaderPrefixes.any (fun p => strStartsWith line p) = false →
      strTake1 line ≠ "\\" → strTake1 line ≠ " " → strTake1 line ≠ "-" →
      strTake1 line ≠ "+" →
      classifyLine line = some ⟨some line, some line, .context⟩) := by
  constructor
  · simp only [parseDiffLines, List.mem_filterMap] at hmem
    obtain ⟨line, -, hcl⟩ := hmem
    simp only [classifyLine] at hcl
    split at hcl
    · exact absurd hcl (by simp)
    · split at hcl
      · exact absurd hcl (by simp)
      · split at hcl
        · exact absurd hcl (by simp)
        · split at hcl
          · cases hcl
            refine ⟨fun _ => ⟨_, rfl, rfl⟩, by simp, by simp, by simp⟩
          · split at hcl
            · cases hcl
              refine ⟨by simp, fun _ => ⟨rfl, rfl⟩, by simp, by simp⟩
            · split at hcl
              · cases hcl
                refine ⟨by simp, by simp, fun _ => ⟨rfl, rfl⟩, by simp⟩
              · cases hcl
                refine ⟨fun _ => ⟨_, rfl, rfl⟩, by simp, by simp, by simp⟩
  · intro line h1 h2 h3 h4 h5 h6
    simp only [classifyLine, h1, h2, h3, h4, h5, h6, if_false, if_neg,
      Bool.false_eq_true]

/-- Witness for C3 at a concrete raw diff. -/
theorem parseDiffLines_shape_witness :
    (⟨some "x", none, .del⟩ : DiffLine) ∈
        (parseDiffLines "@@ -1 +1 @@\n-x\n+y").lines ∧
      ((⟨some "x", none, DiffType.del⟩ : DiffLine).type = .del →
        (⟨some "x", none, DiffType.del⟩ : DiffLine).left.isSome ∧
          (⟨some "x", none, DiffType.del⟩ : DiffLine).right = none) := by
  refine ⟨by decide, ?_⟩
  exact (parseDiffLines_shape "@@ -1 +1 @@\n-x\n+y" ⟨some "x", none, .del⟩
    (by decide)).1.2.1

/-- C1: a successful plain push issues exactly one push command; a plain push
failing without the upstream-missing stderr propagates that error unmodified
with no second push; a plain push failing with the upstream-missing stderr is
retried exactly once, with `push --set-upstream origin <current branch>`; and
two push commands are issued iff the plain push failed for the
upstream-missing reason (and the branch lookup succeeded). -/
theorem push_upstream_retry_policy (env : GitEnv) :
    ((env ["push"]).ok = true →
        gitPush env = (.ok (jsTrim (env ["push"]).stdout), [["push"]])) ∧
    ((env ["push"]).ok = false → upstreamMissing (env ["push"]).stderr = false →
        gitPush env = (.error (env ["push"]), [["push"]])) ∧
    ((env ["push"]).ok = false → upstreamMissing (env ["push"]).stderr = true →
        (env ["branch", "--show-current"]).ok = true →
        (gitPush env).2.filter isPushCmd =
          [["push"],
           ["push", "--set-upstream", "origin",
            jsTrim (env ["branch", "--show-current"]).stdout]]) ∧
    (2 ≤ ((gitPush env).2.filter isPushCmd).length ↔
      ((env ["push"]).ok = false ∧
        upstreamMissing (env ["push"]).stderr = true ∧
        (env ["branch", "--show-current"]).ok = true)) := by
  cases h1 : (env ["push"]).ok with
  | true => simp [gitPush, h1, isPushCmd, List.filter]
  | false =>
    cases h2 : upstreamMissing (env ["push"]).stderr with
    | false => simp [gitPush, h1, h2, isPushCmd, List.filter]
    | true =>
      cases h3 : (env ["branch", "--show-current"]).ok with
      | false => simp [gitPush, h1, h2, h3, isPushCmd, List.filter]
      | true =>
        cases h4 : (env ["push", "--set-upstream", "origin",
            jsTrim (env ["branch", "--show-current"]).stdout]).ok with
        | false => simp [gitPush, h1, h2, h3, h4, isPushCmd, List.filter]
        | true => simp [gitPush, h1, h2, h3, h4, isPushCmd, List.filter]

/-- Witness for C1: in the concrete no-upstream environment the push is
retried exactly once with the upstream-setting form for branch `feat`. -/
theorem push_upstream_retry_policy_witness :
    (gitPush envNoUpstream).2.filter isPushCmd =
      [["push"], ["push", "--set-upstream", "origin", "feat"]] := by
  have h := (push_upstream_retry_policy envNoUpstream).2.2.1 (by decide)
    (by decide) (by decide)
  rw [h]
  decide

/-- `aheadTier3` issues only read commands. -/
lemma aheadTier3_no_reset (env : GitEnv) :
    (aheadTier3 env).2.filter isResetCmd = [] := by
  unfold aheadTier3
  cases h1 : (env ["symbolic-ref", "--short", "refs/remotes/origin/HEAD"]).ok
  · simp [h1, isResetCmd, List.filter]
  · cases h2 : (env ["rev-list", "--count",
        jsTrim (env ["symbolic-ref", "--short",
          "refs/remotes/origin/HEAD"]).stdout ++ "..HEAD"]).ok <;>
      simp [h1, h2, isResetCmd, List.filter]

/-- `computeAheadCount` issues only read commands. -/
lemma computeAheadCount_no_reset (env : GitEnv) :
    (computeAheadCount env).2.filter isResetCmd = [] := by
  unfold computeAheadCount
  cases h1 : (env ["rev-list", "--count", "@{upstream}..HEAD"]).ok
  · cases h2 : (env ["rev-parse", "--abbrev-ref", "HEAD"]).ok
    · simp [h1, h2, isResetCmd, List.filter, List.filter_append,
        aheadTier3_no_reset]
    · cases h3 : (env ["rev-list", "--count",
          "origin/" ++ jsTrim (env ["rev-parse", "--abbrev-ref",
            "HEAD"]).stdout ++ "..HEAD"]).ok <;>
        simp [h1, h2, h3, isResetCmd, List.filter, List.filter_append,
          aheadTier3_no_reset]
  · simp [h1, isResetCmd, List.filter]

/-- `getLog` issues only read commands. -/
lemma getLog_no_reset (env : GitEnv) (maxCount skip : Nat)
    (known : Option Int) :
    (getLog env maxCount skip known).2.filter isResetCmd = [] := by
  unfold getLog
  by_cases hk : known.getD (-1) < 0 <;>
    cases hrl : (env ["log", "--max-count=" ++ toString maxCount,
      "--skip=" ++ toString skip, "--pretty=format:" ++ logFormat, "--"]).ok <;>
    simp [hk, hrl, isResetCmd, List.filter, List.filter_append,
      computeAheadCount_no_reset]

/-- C2: `softResetLastCommit` fails with the initial-commit guard error,
issuing no reset command, when `HEAD~1` cannot be verified; fails with the
already-pushed guard error, issuing no reset command, when the latest
commit's computed `isPushed` is true; and any reset command in its trace
implies both guards passed. -/
theorem softReset_guard_policy (env : GitEnv) :
    ((env ["rev-parse", "--verify", "HEAD~1"]).ok = false →
      softResetLastCommit env =
        (.error (.guard "Cannot undo the initial commit"),
         [["rev-parse", "--verify", "HEAD~1"]])) ∧
    (∀ commits ac, (env ["rev-parse", "--verify", "HEAD~1"]).ok = true →
      (getLog env 1 0 none).1 = .ok (commits, ac) →
      headPushed commits = true →
      (softResetLastCommit env).1 =
          .error (.guard "Cannot undo a commit that has already been pushed") ∧
        (softResetLastCommit env).2.filter isResetCmd = []) ∧
    (∀ c ∈ (softResetLastCommit env).2, isResetCmd c = true →
      (env ["rev-parse", "--verify", "HEAD~1"]).ok = true ∧
      ∃ commits ac, (getLog env 1 0 none).1 = .ok (commits, ac) ∧
        headPushed commits = false) := by
  refine ⟨?_, ?_, ?_⟩
  · intro h
    simp [softResetLastCommit, h]
  · intro commits ac h1 h2 h3
    have hnr := getLog_no_reset env 1 0 none
    simp [softResetLastCommit, h1, h2, h3, isResetCmd, List.filter_cons, hnr]
  · intro c hc hreset
    cases h1 : (env ["rev-parse", "--verify", "HEAD~1"]).ok
    · simp only [softResetLastCommit, h1, Bool.not_false, if_true] at hc
      simp only [List.mem_singleton] at hc
      subst hc
      simp [isResetCmd] at hreset
    · refine ⟨rfl, ?_⟩
      have hnr := getLog_no_reset env 1 0 none
      rw [List.filter_eq_nil_iff] at hnr
      cases hlg : (getLog env 1 0 none).1 with
      | error e =>
        simp only [softResetLastCommit, h1, Bool.not_true, if_false, hlg] at hc
        rcases List.mem_cons.mp hc with h | h
        · subst h; simp [isResetCmd] at hreset
        · exact absurd hreset (by simpa using hnr c h)
      | ok pr =>
        obtain ⟨commits, ac⟩ := pr
        by_cases hp : headPushed commits = true
        · simp only [softResetLastCommit, h1, Bool.not_true, if_false, hlg,
            hp, if_true] at hc
          rcases List.mem_cons.mp hc with h | h
          · subst h; simp [isResetCmd] at hreset
          · exact absurd hreset (by simpa using hnr c h)
        · exact ⟨commits, ac, rfl, by simpa using hp⟩

/-- Witness for C2: on the initial commit the guard error is raised and the
only command issued is the read-only `HEAD~1` verification. -/
theorem softReset_guard_policy_witness :
    softResetLastCommit envInitialCommit =
      (.error (.guard "Cannot undo the initial commit"),
       [["rev-parse", "--verify", "HEAD~1"]]) :=
  (softReset_guard_policy envInitialCommit).1 (by decide)

/-- The entry at position `i` of a parsed log is flagged pushed exactly by
`skip + i >= aheadCount`. -/
lemma parseLogOutput_isPushed (stdout : String) (skip : Nat) (ac : Int)
    (i : Nat) (hi : i < (parseLogOutput stdout skip ac).length) :
    (parseLogOutput stdout skip ac)[i].isPushed
      = decide (ac ≤ (skip : Int) + (i : Int)) := by
  by_cases h : jsTrim stdout = ""
  · rw [parseLogOutput] at hi
    simp [h] at hi
  · simp [parseLogOutput, h, parseLogEntry, List.enum]

/-- C4: when `getLog` succeeds, the returned ahead count is the
caller-provided `knownAheadCount` whenever one is supplied and non-negative
and the freshly computed count otherwise, and the commit at log position
`skip + i` is flagged pushed exactly when that position is at least the
ahead count. -/
theorem getLog_isPushed_boundary (env : GitEnv) (maxCount skip : Nat)
    (known : Option Int) (commits : List LogEntry) (ac : Int)
    (h : (getLog env maxCount skip known).1 = .ok (commits, ac)) :
    (∀ k, known = some k → 0 ≤ k → ac = k) ∧
    ((known = none ∨ ∃ k, known = some k ∧ k < 0) →
      ac = (computeAheadCount env).1) ∧
    (∀ i, ∀ hi : i < commits.length,
      (commits[i].isPushed = true ↔ ac ≤ (skip : Int) + (i : Int))) := by
  by_cases hk : known.getD (-1) < 0 <;>
    cases hrl : (env ["log", "--max-count=" ++ toString maxCount,
        "--skip=" ++ toString skip, "--pretty=format:" ++ logFormat,
        "--"]).ok <;>
    simp only [getLog, hk, hrl, if_true, if_false, Bool.false_eq_true,
      ite_true, ite_false, Except.ok.injEq, Prod.mk.injEq] at h
  · exact absurd h (by simp)
  · obtain ⟨hc, ha⟩ := h
    subst hc
    refine ⟨?_, ?_, ?_⟩
    · intro k hkk hk0
      subst hkk
      simp only [Option.getD_some] at hk
      omega
    · intro _
      omega
    · intro i hi
      rw [parseLogOutput_isPushed _ _ _ _ hi]
      simp [ha]
  · exact absurd h (by simp)
  · obtain ⟨hc, ha⟩ := h
    subst hc
    refine ⟨?_, ?_, ?_⟩
    · intro k hkk _
      subst hkk
      simp only [Option.getD_some] at ha
      omega
    · rintro (hkk | ⟨k, hkk, hklt⟩) <;> subst hkk <;>
        simp only [Option.getD_some, Option.getD_none] at hk <;> omega
    · intro i hi
      rw [parseLogOutput_isPushed _ _ _ _ hi]
      simp [ha]

/-- Witness for C4: with a supplied ahead count of 3 and skip 5, the single
returned commit sits at position 5 ≥ 3 and is flagged pushed. -/
theorem getLog_isPushed_boundary_witness :
    (getLog envLogOne 1 5 (some 3)).1 =
        .ok ([⟨"h1", "s1", "body1", "au", "2024", true, ["v1"]⟩], 3) ∧
      ((⟨"h1", "s1", "body1", "au", "2024", true, ["v1"]⟩ : LogEntry).isPushed
          = true ↔ (3 : Int) ≤ (5 : Int) + (0 : Int)) := by
  have hlog : (getLog envLogOne 1 5 (some 3)).1 =
      .ok ([⟨"h1", "s1", "body1", "au", "2024", true, ["v1"]⟩], 3) := by
    decide
  exact ⟨hlog,
    (getLog_isPushed_boundary envLogOne 1 5 (some 3) _ 3 hlog).2.2 0
      (by decide)⟩

/-- When the third ahead-count tier cannot run to completion its value is
zero. -/
lemma aheadTier3_zero (env : GitEnv)
    (h : (env ["symbolic-ref", "--short",
        "refs/remotes/origin/HEAD"]).ok = false ∨
      (env ["rev-list", "--count", jsTrim (env ["symbolic-ref", "--short",
        "refs/remotes/origin/HEAD"]).stdout ++ "..HEAD"]).ok = false) :
    (aheadTier3 env).1 = 0 := by
  rcases h with h | h
  · simp [aheadTier3, h]
  · cases hcs : (env ["symbolic-ref", "--short",
        "refs/remotes/origin/HEAD"]).ok <;>
      simp [aheadTier3, hcs, h]

/-- When all three ahead-count tiers fail the computed count is zero. -/
lemma computeAheadCount_zero (env : GitEnv)
    (h1 : (env ["rev-list", "--count", "@{upstream}..HEAD"]).ok = false)
    (h2 : (env ["rev-parse", "--abbrev-ref", "HEAD"]).ok = false ∨
      (env ["rev-list", "--count", "origin/" ++
        jsTrim (env ["rev-parse", "--abbrev-ref", "HEAD"]).stdout ++
          "..HEAD"]).ok = false)
    (h3 : (env ["symbolic-ref", "--short",
        "refs/remotes/origin/HEAD"]).ok = false ∨
      (env ["rev-list", "--count", jsTrim (env ["symbolic-ref", "--short",
        "refs/remotes/origin/HEAD"]).stdout ++ "..HEAD"]).ok = false) :
    (computeAheadCount env).1 = 0 := by
  have ht := aheadTier3_zero env h3
  rcases h2 with h2 | h2
  · simp [computeAheadCount, h1, h2, ht]
  · cases hrb : (env ["rev-parse", "--abbrev-ref", "HEAD"]).ok <;>
      simp [computeAheadCount, h1, hrb, h2, ht]

/-- With an ahead count of zero every parsed log entry is flagged pushed. -/
lemma parseLogOutput_zero_all_pushed (stdout : String) (skip : Nat) :
    ∀ dl ∈ parseLogOutput stdout skip 0, dl.isPushed = true := by
  intro dl hdl
  by_cases h : jsTrim stdout = ""
  · simp [parseLogOutput, h] at hdl
  · simp only [parseLogOutput, h, if_false, List.mem_map] at hdl
    obtain ⟨p, -, rfl⟩ := hdl
    simp only [parseLogEntry, decide_eq_true_eq]
    omega

/-- C5: when none of the three comparison tiers succeeds, `getLog` computes
an ahead count of zero (so a successful log call reports every commit as
pushed), and the branch-status handler's ahead/behind computation yields
`(0, 0)` as an ordinary value rather than an error. -/
theorem aheadBehind_zero_fallback (env : GitEnv) (branch : String) :
    ((env ["rev-list", "--count", "@{upstream}..HEAD"]).ok = false →
      ((env ["rev-parse", "--abbrev-ref", "HEAD"]).ok = false ∨
        (env ["rev-list", "--count", "origin/" ++
          jsTrim (env ["rev-parse", "--abbrev-ref", "HEAD"]).stdout ++
            "..HEAD"]).ok = false) →
      ((env ["symbolic-ref", "--short",
          "refs/remotes/origin/HEAD"]).ok = false ∨
        (env ["rev-list", "--count", jsTrim (env ["symbolic-ref", "--short",
          "refs/remotes/origin/HEAD"]).stdout ++ "..HEAD"]).ok = false) →
      (computeAheadCount env).1 = 0 ∧
      ∀ maxCount skip commits ac,
        (getLog env maxCount skip none).1 = .ok (commits, ac) →
        ac = 0 ∧ ∀ dl ∈ commits, dl.isPushed = true) ∧
    ((env ["rev-list", "--left-right", "--count",
        "@{upstream}...HEAD"]).ok = false →
      (env ["rev-list", "--left-right", "--count",
        "origin/" ++ branch ++ "...HEAD"]).ok = false →
      (env ["status", "-sb"]).ok = false →
      (branchAheadBehind env branch).1 = (0, 0)) := by
  constructor
  · intro h1 h2 h3
    have hac := computeAheadCount_zero env h1 h2 h3
    refine ⟨hac, ?_⟩
    intro maxCount skip commits ac h
    cases hrl : (env ["log", "--max-count=" ++ toString maxCount,
        "--skip=" ++ toString skip, "--pretty=format:" ++ logFormat,
        "--"]).ok <;>
      simp only [getLog, Option.getD_none, hrl, if_true, if_false,
        Bool.false_eq_true, Except.ok.injEq, Prod.mk.injEq,
        show ((-1 : Int) < 0 ↔ True) by simp, ite_true, ite_false] at h
    · exact absurd h (by simp)
    · obtain ⟨hc, ha⟩ := h
      refine ⟨by omega, ?_⟩
      subst hc
      rw [hac]
      exact parseLogOutput_zero_all_pushed _ _
  · intro h1 h2 h3
    simp [branchAheadBehind, h1, h2, h3]

/-- Witness for C5: with every remote query failing, the ahead count
computes to zero, the single returned commit is flagged pushed, and the
handler's ahead/behind pair is `(0, 0)`. -/
theorem aheadBehind_zero_fallback_witness :
    (computeAheadCount envAllFail).1 = 0 ∧
      (∀ dl ∈ [(⟨"h1", "s1", "b", "au", "2024", true, []⟩ : LogEntry)],
        dl.isPushed = true) ∧
      (branchAheadBehind envAllFail "feat").1 = (0, 0) := by
  have h := aheadBehind_zero_fallback envAllFail "feat"
  have h1 := h.1 (by decide) (Or.inl (by decide)) (Or.inl (by decide))
  refine ⟨h1.1, ?_, h.2 (by decide) (by decide) (by decide)⟩
  exact (h1.2 1 0 [⟨"h1", "s1", "b", "au", "2024", true, []⟩] 0
    (by decide)).2

/-- C7: when the resolved file path escapes the working-tree root, both
`getFileDiff` and `getCommitFileDiff` fail with the path guard error and
execute no git command at all (empty trace). -/
theorem fileDiff_path_escape (env : GitEnv) (readFileRes : Option String)
    (absPath resolvedTaskPath sep filePath commitHash : String)
    (h : pathEscapes absPath resolvedTaskPath sep = true) :
    getFileDiff env readFileRes absPath resolvedTaskPath sep filePath =
        (.error (.guard "File path is outside the worktree"), []) ∧
      getCommitFileDiff env absPath resolvedTaskPath sep commitHash filePath =
        (.error (.guard "File path is outside the worktree"), []) := by
  constructor
  · simp [getFileDiff, h]
  · simp [getCommitFileDiff, h]

/-- Witness for C7 at a concrete escaping path. -/
theorem fileDiff_path_escape_witness :
    getFileDiff envTrivial none "/etc/passwd" "/repo" "/" "../../etc/passwd" =
        (.error (.guard "File path is outside the worktree"), []) ∧
      getCommitFileDiff envTrivial "/etc/passwd" "/repo" "/" "abc123"
          "../../etc/passwd" =
        (.error (.guard "File path is outside the worktree"), []) :=
  fileDiff_path_escape envTrivial none "/etc/passwd" "/repo" "/"
    "../../etc/passwd" "abc123" (by decide)

/-- C6: for a path inside the working tree, whenever the diff against HEAD
yields no parsed lines and no binary marker — or the diff command itself
fails — `getFileDiff` returns the file's current content as an all-additions
sequence; when the file is unreadable it returns the HEAD version as an
all-deletions sequence, or an empty sequence when no HEAD version exists;
and the all-additions/all-deletions sequences consist entirely of add
(resp. del) lines carrying the split content. -/
theorem fileDiff_untracked_fallbacks (env : GitEnv)
    (readFileRes : Option String)
    (absPath resolvedTaskPath sep filePath : String)
    (hp : pathEscapes absPath resolvedTaskPath sep = false) :
    ((env ["diff", "--no-color", "--unified=2000", "HEAD", "--",
        filePath]).ok = true →
      (parseDiffLines (env ["diff", "--no-color", "--unified=2000", "HEAD",
        "--", filePath]).stdout).isBinary = false →
      (parseDiffLines (env ["diff", "--no-color", "--unified=2000", "HEAD",
        "--", filePath]).stdout).lines = [] →
      (∀ content, readFileRes = some content →
        getFileDiff env readFileRes absPath resolvedTaskPath sep filePath =
          (.ok ⟨allAddLines content, false⟩,
           [["diff", "--no-color", "--unified=2000", "HEAD", "--",
             filePath]])) ∧
      (readFileRes = none →
        (env ["show", "HEAD:" ++ filePath]).ok = true →
        getFileDiff env readFileRes absPath resolvedTaskPath sep filePath =
          (.ok ⟨allDelLines (env ["show", "HEAD:" ++ filePath]).stdout,
            false⟩,
           [["diff", "--no-color", "--unified=2000", "HEAD", "--", filePath],
            ["show", "HEAD:" ++ filePath]])) ∧
      (readFileRes = none →
        (env ["show", "HEAD:" ++ filePath]).ok = false →
        getFileDiff env readFileRes absPath resolvedTaskPath sep filePath =
          (.ok ⟨[], false⟩,
           [["diff", "--no-color", "--unified=2000", "HEAD", "--", filePath],
            ["show", "HEAD:" ++ filePath]]))) ∧
    ((env ["diff", "--no-color", "--unified=2000", "HEAD", "--",
        filePath]).ok = false →
      (∀ content, readFileRes = some content →
        getFileDiff env readFileRes absPath resolvedTaskPath sep filePath =
          (.ok ⟨allAddLines content, false⟩,
           [["diff", "--no-color", "--unified=2000", "HEAD", "--",
             filePath]])) ∧
      (readFileRes = none →
        (env ["show", "HEAD:" ++ filePath]).ok = true →
        getFileDiff env readFileRes absPath resolvedTaskPath sep filePath =
          (.ok ⟨allDelLines (env ["show", "HEAD:" ++ filePath]).stdout,
            false⟩,
           [["diff", "--no-color", "--unified=2000", "HEAD", "--", filePath],
            ["show", "HEAD:" ++ filePath]])) ∧
      (readFileRes = none →
        (env ["show", "HEAD:" ++ filePath]).ok = false →
        getFileDiff env readFileRes absPath resolvedTaskPath sep filePath =
          (.ok ⟨[], false⟩,
           [["diff", "--no-color", "--unified=2000", "HEAD", "--", filePath],
            ["show", "HEAD:" ++ filePath]]))) ∧
    (∀ content : String,
      (∀ dl ∈ allAddLines content, dl.type = .add ∧ dl.left = none) ∧
      (allAddLines content).map DiffLine.right =
        (jsSplit content "\n").map some ∧
      (∀ dl ∈ allDelLines content, dl.type = .del ∧ dl.right = none) ∧
      (allDelLines content).map DiffLine.left =
        (jsSplit content "\n").map some) := by
  refine ⟨?_, ?_, ?_⟩
  · intro hd hb he
    refine ⟨?_, ?_, ?_⟩
    · intro content hc
      simp [getFileDiff, hp, hd, hb, he, hc]
    · intro hc hs
      simp [getFileDiff, hp, hd, hb, he, hc, hs]
    · intro hc hs
      simp [getFileDiff, hp, hd, hb, he, hc, hs]
  · intro hd
    refine ⟨?_, ?_, ?_⟩
    · intro content hc
      simp [getFileDiff, hp, hd, hc]
    · intro hc hs
      simp [getFileDiff, hp, hd, hc, hs]
    · intro hc hs
      simp [getFileDiff, hp, hd, hc, hs]
  · intro content
    refine ⟨?_, ?_, ?_, ?_⟩
    · intro dl hdl
      simp only [allAddLines, List.mem_map] at hdl
      obtain ⟨l, -, rfl⟩ := hdl
      exact ⟨rfl, rfl⟩
    · simp [allAddLines, List.map_map, Function.comp]
    · intro dl hdl
      simp only [allDelLines, List.mem_map] at hdl
      obtain ⟨l, -, rfl⟩ := hdl
      exact ⟨rfl, rfl⟩
    · simp [allDelLines, List.map_map, Function.comp]

/-- Witness for C6: an empty diff against HEAD plus readable content
`a\nb` yields the two-line all-additions sequence. -/
theorem fileDiff_untracked_fallbacks_witness :
    getFileDiff envTrivial (some "a\nb") "/repo/f.txt" "/repo" "/" "f.txt" =
      (.ok ⟨[⟨none, some "a", .add⟩, ⟨none, some "b", .add⟩], false⟩,
       [["diff", "--no-color", "--unified=2000", "HEAD", "--", "f.txt"]]) := by
  have h := ((fileDiff_untracked_fallbacks envTrivial (some "a\nb")
      "/repo/f.txt" "/repo" "/" "f.txt" (by decide)).1 (by decide) (by decide)
      (by decide)).1 "a\nb" rfl
  rw [h]
  decide

/-- C8: watch subscriptions are reference-counted per path, for the local
watcher registry and the remote poller registry alike: a second watch on an
already-watched path only adds its id to the existing entry (same underlying
watcher/interval, no new resource, nothing closed); a release removes only
its own id, keeping the resource open while other ids remain; and the
resource is closed and the entry deleted exactly when the id set becomes
empty. -/
theorem watch_refcount_lifecycle :
    (∀ (s : WatcherRegistry) (e : GitWatchEntry) (p id : String),
      lookupEntry s.entries p = some e →
      ensureGitStatusWatcher s true true true p id =
        ({ s with entries := setEntry s.entries p ({ e with watchIds := addId e.watchIds id }) }, some id)) ∧
    (∀ (s : WatcherRegistry) (e : GitWatchEntry) (p id : String),
      lookupEntry s.entries p = some e →
      e.watchIds.filter (fun x => x ≠ id) ≠ [] →
      releaseGitStatusWatcher s p (some id) =
        { s with entries := setEntry s.entries p ({ e with watchIds := e.watchIds.filter (fun x => x ≠ id) }) }) ∧
    (∀ (s : WatcherRegistry) (e : GitWatchEntry) (p id : String),
      lookupEntry s.entries p = some e →
      e.watchIds.filter (fun x => x ≠ id) = [] →
      releaseGitStatusWatcher s p (some id) =
        { s with entries := delEntry s.entries p,
                 closedWatchers := s.closedWatchers ++ [e.watcher] }) ∧
    (∀ (s : PollerRegistry) (e : RemotePollEntry) (p conn id : String),
      lookupEntry s.entries p = some e →
      ensureRemoteStatusPoller s p conn id =
        ({ s with entries := setEntry s.entries p ({ e with watchIds := addId e.watchIds id }) }, id)) ∧
    (∀ (s : PollerRegistry) (e : RemotePollEntry) (p id : String),
      lookupEntry s.entries p = some e →
      e.watchIds.filter (fun x => x ≠ id) ≠ [] →
      releaseRemoteStatusPoller s p (some id) =
        { s with entries := setEntry s.entries p ({ e with watchIds := e.watchIds.filter (fun x => x ≠ id) }) }) ∧
    (∀ (s : PollerRegistry) (e : RemotePollEntry) (p id : String),
      lookupEntry s.entries p = some e →
      e.watchIds.filter (fun x => x ≠ id) = [] →
      releaseRemoteStatusPoller s p (some id) =
        { s with entries := delEntry s.entries p,
                 clearedIntervals := s.clearedIntervals ++ [e.intervalId] }) := by
  refine ⟨?_, ?_, ?_, ?_, ?_, ?_⟩
  · intro s e p id h
    simp [ensureGitStatusWatcher, h]
  · intro s e p id h hne
    simp only [releaseGitStatusWatcher, h]
    rw [if_neg (by simpa [List.length_eq_zero] using hne)]
  · intro s e p id h hemp
    simp only [releaseGitStatusWatcher, h]
    rw [if_pos (by rw [hemp]; rfl)]
  · intro s e p conn id h
    simp [ensureRemoteStatusPoller, h]
  · intro s e p id h hne
    simp only [releaseRemoteStatusPoller, h]
    rw [if_neg (by simpa [List.length_eq_zero] using hne)]
  · intro s e p id h hemp
    simp only [releaseRemoteStatusPoller, h]
    rw [if_pos (by rw [hemp]; rfl)]

/-- Witness for C8: after two watches on one path and one release the
watcher (identity 0) is still registered with the remaining id; the second
release deletes the entry and closes it. -/
theorem watch_refcount_lifecycle_witness :
    releaseGitStatusWatcher
        (ensureGitStatusWatcher
          (ensureGitStatusWatcher ⟨[], 0, []⟩ true true true "p" "id1").1
          true true true "p" "id2").1 "p" (some "id1") =
      ⟨[("p", ⟨0, ["id2"]⟩)], 1, []⟩ ∧
    releaseGitStatusWatcher ⟨[("p", ⟨0, ["id2"]⟩)], 1, []⟩ "p" (some "id2") =
      ⟨[], 1, [0]⟩ := by
  constructor
  · have h := (watch_refcount_lifecycle).2.1
      (ensureGitStatusWatcher
        (ensureGitStatusWatcher ⟨[], 0, []⟩ true true true "p" "id1").1
        true true true "p" "id2").1
      ⟨0, ["id1", "id2"]⟩ "p" "id1" (by decide) (by decide)
    rw [h]
    decide
  · have h := (watch_refcount_lifecycle).2.2.1
      ⟨[("p", ⟨0, ["id2"]⟩)], 1, []⟩ ⟨0, ["id2"]⟩ "p" "id2"
      (by decide) (by decide)
    rw [h]
    decide

/-- C9: a branch that is not tracking a remote (tracking config absent or
empty, and no same-named head on origin) is renamed with only the local
rename command, issued after the remote-tracking detection reads, and no
push command appears in the trace; in general a run that reports
`remotePushed = false` issued no push command at all. -/
theorem renameBranch_local_only (env : GitEnv) (oldB newB : String) :
    ((env ["config", "--get", "branch." ++ oldB ++ ".remote"]).ok = true →
      nonEmptyTrim (env ["config", "--get",
        "branch." ++ oldB ++ ".remote"]) = false →
      (env ["branch", "-m", oldB, newB]).ok = true →
      renameBranchLocal env oldB newB =
        (.ok false, [["config", "--get", "branch." ++ oldB ++ ".remote"],
                     ["branch", "-m", oldB, newB]])) ∧
    ((env ["config", "--get", "branch." ++ oldB ++ ".remote"]).ok = false →
      ((env ["ls-remote", "--heads", "origin", oldB]).ok &&
        nonEmptyTrim (env ["ls-remote", "--heads", "origin", oldB]))
          = false →
      (env ["branch", "-m", oldB, newB]).ok = true →
      renameBranchLocal env oldB newB =
        (.ok false, [["config", "--get", "branch." ++ oldB ++ ".remote"],
                     ["ls-remote", "--heads", "origin", oldB],
                     ["branch", "-m", oldB, newB]])) ∧
    ((renameBranchLocal env oldB newB).1 = .ok false →
      (renameBranchLocal env oldB newB).2.filter isPushCmd = []) := by
  refine ⟨?_, ?_, ?_⟩
  · intro h1 h2 h3
    simp [renameBranchLocal, h1, h2, h3]
  · intro h1 h2 h3
    simp [renameBranchLocal, h1, h2, h3]
  · intro hres
    cases hcfg : (env ["config", "--get", "branch." ++ oldB ++ ".remote"]).ok <;>
      cases hmv : (env ["branch", "-m", oldB, newB]).ok
    · simp [renameBranchLocal, hcfg, hmv] at hres
    · cases hls : ((env ["ls-remote", "--heads", "origin", oldB]).ok &&
          nonEmptyTrim (env ["ls-remote", "--heads", "origin", oldB]))
      · simp [renameBranchLocal, hcfg, hmv, hls, isPushCmd, List.filter]
      · simp only [renameBranchLocal, hcfg, hmv, hls] at hres
        cases hpu : (env ["push", "-u", "origin", newB]).ok <;>
          simp [hpu] at hres
    · simp [renameBranchLocal, hcfg, hmv] at hres
    · cases htr : nonEmptyTrim (env ["config", "--get",
          "branch." ++ oldB ++ ".remote"])
      · simp [renameBranchLocal, hcfg, hmv, htr, isPushCmd, List.filter]
      · simp only [renameBranchLocal, hcfg, hmv, htr] at hres
        cases hpu : (env ["push", "-u",
            jsTrim (env ["config", "--get",
              "branch." ++ oldB ++ ".remote"]).stdout, newB]).ok <;>
          simp [hpu] at hres

/-- Witness for C9: with no tracking config and no remote head, renaming
`old` to `new` issues exactly the two detection reads and the local rename,
and no push. -/
theorem renameBranch_local_only_witness :
    renameBranchLocal envLocalRename "old" "new" =
      (.ok false, [["config", "--get", "branch.old.remote"],
                   ["ls-remote", "--heads", "origin", "old"],
                   ["branch", "-m", "old", "new"]]) := by
  have h := (renameBranch_local_only envLocalRename "old" "new").2.1
    (by decide) (by decide) (by decide)
  rw [h]
  decide

/-- C10: the remote poll fingerprint depends only on each entry's `path`,
`status` and `isStaged`; two consecutive successful polls whose status lists
agree pointwise on those fields (additions/deletions free to differ)
produce the same fingerprint, and the second poll broadcasts nothing and
leaves the entry unchanged. -/
theorem poll_fingerprint_counts_invariant (l1 l2 : List GitChange)
    (e : RemotePollEntry)
    (hlen : l1.length = l2.length)
    (hpt : ∀ i, ∀ h1 : i < l1.length, ∀ h2 : i < l2.length,
      l1[i].path = l2[i].path ∧ l1[i].status = l2[i].status ∧
        l1[i].isStaged = l2[i].isStaged) :
    statusFingerprint l1 = statusFingerprint l2 ∧
    pollTick ((pollTick e (some l1)).1) (some l2) =
      ((pollTick e (some l1)).1, false) := by
  have hmap : l1.map (fun c => c.path ++ ":" ++ c.status ++ ":" ++
        boolToStr c.isStaged) =
      l2.map (fun c => c.path ++ ":" ++ c.status ++ ":" ++
        boolToStr c.isStaged) := by
    apply List.ext_getElem (by simpa using hlen)
    intro i h1 h2
    simp only [List.getElem_map]
    have h1' : i < l1.length := by simpa using h1
    have h2' : i < l2.length := by simpa using h2
    obtain ⟨hp, hs, hst⟩ := hpt i h1' h2'
    rw [hp, hs, hst]
  have hfp : statusFingerprint l1 = statusFingerprint l2 := by
    simp [statusFingerprint, hmap]
  refine ⟨hfp, ?_⟩
  set e1 := (pollTick e (some l1)).1 with he1
  have hlast : e1.lastStatusHash = statusFingerprint l1 := by
    rw [he1]
    by_cases h : statusFingerprint l1 ≠ e.lastStatusHash
    · simp [pollTick, h]
    · simp only [not_not] at h
      simp [pollTick, h]
  show pollTick e1 (some l2) = (e1, false)
  simp only [pollTick]
  rw [if_neg (by rw [hlast, ← hfp]; exact not_not_intro rfl)]

/-- Witness for C10: two polls differing only in additions/deletions share
one fingerprint and the second broadcasts nothing. -/
theorem poll_fingerprint_counts_invariant_witness :
    statusFingerprint [⟨"f", "modified", 1, 2, true⟩] =
        statusFingerprint [⟨"f", "modified", 5, 0, true⟩] ∧
      pollTick ((pollTick ⟨7, ["w"], "", "conn"⟩
          (some [⟨"f", "modified", 1, 2, true⟩])).1)
        (some [⟨"f", "modified", 5, 0, true⟩]) =
        ((pollTick ⟨7, ["w"], "", "conn"⟩
          (some [⟨"f", "modified", 1, 2, true⟩])).1, false) :=
  poll_fingerprint_counts_invariant _ _ _ (by decide)
    (fun i h1 _ => by
      have hi : i = 0 := by
        simp at h1
        omega
      subst hi
      exact ⟨rfl, rfl, rfl⟩)

end Emdash
